import Mathlib

/-!
Verification of the LSPS0/LSPS2 liquidity-protocol implementation
(`src/jit_channel/msgs.rs` and `src/transport/message_handler.rs`) against its
natural-language specification.

The development shallowly embeds the relevant Rust code: machine integers are
`Nat` with explicit `% 2 ^ w` where wraparound matters, byte strings are
`List Nat` of values `< 256`, fallible code returns `Except`/`Option`.
`HMAC-SHA256` (from the `bitcoin_hashes` crate) and chrono's RFC 3339
formatting are embedded in full so that promises evaluate on concrete inputs.
-/

set_option maxRecDepth 100000

namespace LdkLsp

/-! ## 32-bit words and byte strings -/

/-- Addition of 32-bit words, wrapping. -/
def add32 (a b : Nat) : Nat := (a + b) % 4294967296

/-- Right rotation of a 32-bit word by `r` bits. -/
def rotr32 (r x : Nat) : Nat := ((x >>> r) ||| (x <<< (32 - r))) % 4294967296

/-- Big-endian byte encoding of `x` in exactly `n` bytes (`u64::to_be_bytes`,
`u32::to_be_bytes` and the SHA-256 length field). -/
def beBytes : Nat → Nat → List Nat
  | 0, _ => []
  | n + 1, x => beBytes n (x >>> 8) ++ [x % 256]

/-- One 32-bit word from four big-endian bytes. -/
def wordOfBytes (l : List Nat) : Nat := l.foldl (fun acc b => acc * 256 + b) 0

/-- Split a list into chunks of `n` elements (fuel-based so that the kernel can
evaluate it). -/
def chunkifyAux (n : Nat) : Nat → List Nat → List (List Nat)
  | 0, _ => []
  | _ + 1, [] => []
  | fuel + 1, l => l.take n :: chunkifyAux n fuel (l.drop n)

/-- Split a list into chunks of `n` elements. -/
def chunkify (n : Nat) (l : List Nat) : List (List Nat) := chunkifyAux n l.length l

/-! ## SHA-256 (FIPS 180-4), as used by `bitcoin::hashes::sha256` -/

/-- The SHA-256 round constants (FIPS 180-4 section 4.2.2, in decimal). -/
def sha256K : List Nat :=
  [1116352408, 1899447441, 3049323471, 3921009573, 961987163,
   1508970993, 2453635748, 2870763221, 3624381080, 310598401,
   607225278, 1426881987, 1925078388, 2162078206, 2614888103,
   3248222580, 3835390401, 4022224774, 264347078, 604807628,
   770255983, 1249150122, 1555081692, 1996064986, 2554220882,
   2821834349, 2952996808, 3210313671, 3336571891, 3584528711,
   113926993, 338241895, 666307205, 773529912, 1294757372,
   1396182291, 1695183700, 1986661051, 2177026350, 2456956037,
   2730485921, 2820302411, 3259730800, 3345764771, 3516065817,
   3600352804, 4094571909, 275423344, 430227734, 506948616,
   659060556, 883997877, 958139571, 1322822218, 1537002063,
   1747873779, 1955562222, 2024104815, 2227730452, 2361852424,
   2428436474, 2756734187, 3204031479, 3329325298]

/-- The SHA-256 initial hash value (FIPS 180-4 section 5.3.3, in decimal). -/
def sha256H0 : List Nat :=
  [1779033703, 3144134277, 1013904242, 2773480762,
   1359893119, 2600822924, 528734635, 1541459225]

/-- SHA-256 `Ch` function. -/
def sha256Ch (x y z : Nat) : Nat := (x &&& y) ^^^ ((x ^^^ 0xffffffff) &&& z)

/-- SHA-256 `Maj` function. -/
def sha256Maj (x y z : Nat) : Nat := (x &&& y) ^^^ (x &&& z) ^^^ (y &&& z)

/-- SHA-256 big sigma 0. -/
def bigSig0 (x : Nat) : Nat := rotr32 2 x ^^^ rotr32 13 x ^^^ rotr32 22 x

/-- SHA-256 big sigma 1. -/
def bigSig1 (x : Nat) : Nat := rotr32 6 x ^^^ rotr32 11 x ^^^ rotr32 25 x

/-- SHA-256 small sigma 0. -/
def smallSig0 (x : Nat) : Nat := rotr32 7 x ^^^ rotr32 18 x ^^^ (x >>> 3)

/-- SHA-256 small sigma 1. -/
def smallSig1 (x : Nat) : Nat := rotr32 17 x ^^^ rotr32 19 x ^^^ (x >>> 10)

/-- Extend the 16 message-schedule words to 64, appending one word per step. -/
def schedExtend : Nat → List Nat → List Nat
  | 0, w => w
  | n + 1, w =>
    let t := w.length
    schedExtend n (w ++ [add32 (add32 (smallSig1 (w.getD (t - 2) 0)) (w.getD (t - 7) 0))
      (add32 (smallSig0 (w.getD (t - 15) 0)) (w.getD (t - 16) 0))])

/-- One SHA-256 compression round, over the 8-word working state. -/
def sha256Round (st : List Nat) (kw : Nat × Nat) : List Nat :=
  match st with
  | [a, b, c, d, e, f, g, h] =>
    let t1 := add32 h (add32 (bigSig1 e) (add32 (sha256Ch e f g) (add32 kw.1 kw.2)))
    let t2 := add32 (bigSig0 a) (sha256Maj a b c)
    [add32 t1 t2, a, b, c, add32 d t1, e, f, g]
  | st => st

/-- Compress one 64-byte block into the running 8-word hash state. -/
def sha256Compress (h : List Nat) (block : List Nat) : List Nat :=
  let w := schedExtend 48 ((chunkify 4 block).map wordOfBytes)
  let st := (sha256K.zip w).foldl sha256Round h
  List.zipWith add32 h st

/-- SHA-256 padding: a `0x80` byte, zeros to 56 mod 64, then the bit length as
8 big-endian bytes. -/
def sha256Pad (msg : List Nat) : List Nat :=
  msg ++ 0x80 :: List.replicate ((119 - msg.length % 64) % 64) 0
    ++ beBytes 8 (8 * msg.length % 18446744073709551616)

/-- SHA-256 of a byte string, as 32 bytes. -/
def sha256 (msg : List Nat) : List Nat :=
  (((chunkify 64 (sha256Pad msg)).foldl sha256Compress sha256H0).map (beBytes 4)).flatten

/-! ## HMAC-SHA256 (RFC 2104), as implemented by `bitcoin::hashes::hmac` -/

/-- The HMAC key padded to the 64-byte SHA-256 block size; a longer key is
hashed first, exactly as `HmacEngine::<Sha256>::new` does. -/
def hmacKeyBlock (key : List Nat) : List Nat :=
  let k := if key.length > 64 then sha256 key else key
  k ++ List.replicate (64 - k.length) 0

/-- HMAC-SHA256 of `msg` under `key`, as 32 bytes
(`Hmac::<Sha256>::from_engine(..).into_inner()`). -/
def hmacSha256 (key msg : List Nat) : List Nat :=
  let k0 := hmacKeyBlock key
  sha256 ((k0.map (fun b => b ^^^ 0x5c)) ++ sha256 ((k0.map (fun b => b ^^^ 0x36)) ++ msg))

/-- Lowercase hex digit for a value `< 16`. -/
def hexDigit (n : Nat) : Char := Char.ofNat (if n < 10 then 48 + n else 87 + n)

/-- Lowercase hex encoding of a byte string (`utils::hex_str`, which formats
each byte with `{:02x}`). -/
def hex_str (bytes : List Nat) : String :=
  String.mk (bytes.foldr (fun b acc => hexDigit (b / 16) :: hexDigit (b % 16) :: acc) [])

/-! ## Decimal rendering of naturals (Rust `{}` formatting) -/

/-- Little-endian decimal digits of `n`, fuel-based so that the kernel can
evaluate it; any fuel `> n` suffices. -/
def decLEAux : Nat → Nat → List Nat
  | 0, _ => []
  | fuel + 1, n => if n < 10 then [n] else n % 10 :: decLEAux fuel (n / 10)

/-- Big-endian decimal digits of `n` (never empty, no leading zero except for
`0` itself). -/
def decDigits (n : Nat) : List Nat := (decLEAux (n + 1) n).reverse

/-- The character for a decimal digit. -/
def digitChar (d : Nat) : Char := Char.ofNat (48 + d)

/-- `n` written in decimal, as Rust `{}` formatting of an unsigned integer. -/
def natDec (n : Nat) : List Char := (decDigits n).map digitChar

/-- Left-pad with `'0'` to width `w` (chrono numeric fields). -/
def zeroPad (w : Nat) (l : List Char) : List Char :=
  List.replicate (w - l.length) '0' ++ l

/-! ## chrono `DateTime<Utc>` and its RFC 3339 rendering -/

/-- A `chrono::DateTime<Utc>` calendar instant. chrono stores an instant; we
carry its UTC calendar components, which is what both formatting and the
derived lexicographic ordering consume. -/
structure DateTimeUtc where
  year : Nat
  month : Nat
  day : Nat
  hour : Nat
  minute : Nat
  second : Nat
  nanosecond : Nat
deriving DecidableEq

/-- chrono's `Ord` on `DateTime<Utc>`: instants compare lexicographically on
the UTC calendar components. -/
def dtLe (a b : DateTimeUtc) : Bool :=
  if a.year ≠ b.year then a.year < b.year
  else if a.month ≠ b.month then a.month < b.month
  else if a.day ≠ b.day then a.day < b.day
  else if a.hour ≠ b.hour then a.hour < b.hour
  else if a.minute ≠ b.minute then a.minute < b.minute
  else if a.second ≠ b.second then a.second < b.second
  else a.nanosecond ≤ b.nanosecond

/-- chrono's `%.f` / `SecondsFormat::AutoSi` fraction: nothing when the
nanosecond part is zero, otherwise a dot followed by 3, 6 or 9 digits —
whichever smallest SI width represents the value exactly. -/
def autoSiFrac (nano : Nat) : List Char :=
  if nano = 0 then []
  else if nano % 1000000 = 0 then '.' :: zeroPad 3 (natDec (nano / 1000000))
  else if nano % 1000 = 0 then '.' :: zeroPad 6 (natDec (nano / 1000))
  else '.' :: zeroPad 9 (natDec nano)

/-- The date-and-time part `YYYY-MM-DDTHH:MM:SS[.frac]` shared by both RFC 3339
renderings below. -/
def rfc3339Body (dt : DateTimeUtc) : List Char :=
  zeroPad 4 (natDec dt.year) ++ '-' :: zeroPad 2 (natDec dt.month)
    ++ '-' :: zeroPad 2 (natDec dt.day) ++ 'T' :: zeroPad 2 (natDec dt.hour)
    ++ ':' :: zeroPad 2 (natDec dt.minute) ++ ':' :: zeroPad 2 (natDec dt.second)
    ++ autoSiFrac dt.nanosecond

/-- chrono's `DateTime::to_rfc3339` on a UTC instant: `to_rfc3339_opts` with
`SecondsFormat::AutoSi` and `use_z = false`, so the zero offset is rendered as
the numeric `+00:00`, not as `Z`. -/
def to_rfc3339 (dt : DateTimeUtc) : List Char :=
  rfc3339Body dt ++ ['+', '0', '0', ':', '0', '0']

/-- The RFC 3339 rendering the specification text prescribes for the promise
input: UTC with a `Z` suffix. Stated from the spec's words, for comparison
with what the code actually hashes. -/
def specRfc3339Z (dt : DateTimeUtc) : List Char :=
  rfc3339Body dt ++ ['Z']

/-- UTF-8 bytes of an ASCII character list (`str::as_bytes`; every character a
chrono RFC 3339 rendering emits is ASCII). -/
def strBytes (l : List Char) : List Nat := l.map Char.toNat

/-! ## LSPS2 message types (`src/jit_channel/msgs.rs`) -/

/-- `RawOpeningFeeParams`: fees and parameters for a JIT channel without the
promise. `min_fee_msat` is a `u64`, the remaining numeric fields are `u32`. -/
structure RawOpeningFeeParams where
  min_fee_msat : Nat
  proportional : Nat
  valid_until : DateTimeUtc
  min_lifetime : Nat
  max_client_to_self_delay : Nat
deriving DecidableEq

/-- `OpeningFeeParams`: fees and parameters for a JIT channel including the
promise. -/
structure OpeningFeeParams where
  min_fee_msat : Nat
  proportional : Nat
  valid_until : DateTimeUtc
  min_lifetime : Nat
  max_client_to_self_delay : Nat
  promise : String
deriving DecidableEq

/-- The byte string fed to the promise HMAC by
`RawOpeningFeeParams::into_opening_fee_params`: the successive
`hmac.input(..)` calls hash the concatenation of the 8-byte big-endian
`min_fee_msat`, the 4-byte big-endian `proportional`, the UTF-8 bytes of
`valid_until.to_rfc3339()`, the 4-byte big-endian `min_lifetime` and the
4-byte big-endian `max_client_to_self_delay`. -/
def promiseMessage (r : RawOpeningFeeParams) : List Nat :=
  beBytes 8 r.min_fee_msat ++ beBytes 4 r.proportional
    ++ strBytes (to_rfc3339 r.valid_until) ++ beBytes 4 r.min_lifetime
    ++ beBytes 4 r.max_client_to_self_delay

/-- `RawOpeningFeeParams::into_opening_fee_params`: copy the five fields and
attach the lowercase-hex HMAC-SHA256 promise computed under `promise_secret`. -/
def RawOpeningFeeParams.into_opening_fee_params (r : RawOpeningFeeParams)
    (promise_secret : List Nat) : OpeningFeeParams :=
  let promise_bytes := hmacSha256 promise_secret (promiseMessage r)
  { min_fee_msat := r.min_fee_msat
    proportional := r.proportional
    valid_until := r.valid_until
    min_lifetime := r.min_lifetime
    max_client_to_self_delay := r.max_client_to_self_delay
    promise := hex_str promise_bytes }

/-- The five non-promise fields of an `OpeningFeeParams`, as the raw record the
verifier recomputes the promise from. -/
def OpeningFeeParams.raw_fields (p : OpeningFeeParams) : RawOpeningFeeParams :=
  { min_fee_msat := p.min_fee_msat
    proportional := p.proportional
    valid_until := p.valid_until
    min_lifetime := p.min_lifetime
    max_client_to_self_delay := p.max_client_to_self_delay }

/-- Modelled from the spec: `is_valid_opening_fee_params` lives in
`src/jit_channel/utils.rs`, which is not among the provided source files.
Spec §4.2: recompute the HMAC promise over the offer fields, require equality
with the carried `promise`, and additionally require `now ≤ valid_until`; the
verification time is passed explicitly here in place of `Utc::now()`. -/
def is_valid_opening_fee_params (fee_params : OpeningFeeParams)
    (promise_secret : List Nat) (now : DateTimeUtc) : Bool :=
  (hex_str (hmacSha256 promise_secret (promiseMessage fee_params.raw_fields))
      == fee_params.promise)
    && dtLe now fee_params.valid_until

/-! ## SCID codec

`JitChannelScid` and its `From<u64>` instance are in `src/jit_channel/msgs.rs`;
the field extractors and the parser live in `src/utils.rs`, which is not among
the provided source files and is therefore modelled from spec §4.3. -/

/-- Modelled from the spec: `utils::block_from_scid` is in `src/utils.rs`,
not among the provided source files. Spec §4.3: the block is bits 63..40 of
the 64-bit SCID. -/
def block_from_scid (scid : Nat) : Nat := scid / 1099511627776

/-- Modelled from the spec: `utils::tx_index_from_scid` is in `src/utils.rs`,
not among the provided source files. Spec §4.3: the tx index is bits 39..16. -/
def tx_index_from_scid (scid : Nat) : Nat := scid / 65536 % 16777216

/-- Modelled from the spec: `utils::vout_from_scid` is in `src/utils.rs`,
not among the provided source files. Spec §4.3: the vout is bits 15..0. -/
def vout_from_scid (scid : Nat) : Nat := scid % 65536

/-- `JitChannelScid`: a newtype holding a `short_channel_id` in the human
readable `BLOCKxTXxVOUT` form; the inner Rust `String` is carried as its
character list. -/
structure JitChannelScid where
  human : List Char
deriving DecidableEq

/-- `impl From<u64> for JitChannelScid`: extract the three fields and render
them in decimal joined by literal `x` separators
(`format!("{}x{}x{}", block, tx_index, vout)`). -/
def JitChannelScid.fromU64 (scid : Nat) : JitChannelScid :=
  ⟨natDec (block_from_scid scid)
    ++ 'x' :: (natDec (tx_index_from_scid scid)
      ++ 'x' :: natDec (vout_from_scid scid))⟩

/-- Split a character list on a separator character, `str::split` style: `n`
separators yield `n + 1` (possibly empty) parts. -/
def splitOnCharAux (sep : Char) : List Char → List Char → List (List Char)
  | [], acc => [acc.reverse]
  | c :: rest, acc =>
    if c = sep then acc.reverse :: splitOnCharAux sep rest []
    else splitOnCharAux sep rest (c :: acc)

/-- Split a character list on a separator character. -/
def splitOnChar (sep : Char) (l : List Char) : List (List Char) :=
  splitOnCharAux sep l []

/-- Decimal digit test on a character. -/
def isDecDigitChar (c : Char) : Bool := 48 ≤ c.toNat && c.toNat ≤ 57

/-- Parse a nonempty all-digit character list as a decimal natural. -/
def parseDec (l : List Char) : Option Nat :=
  if l.isEmpty then none
  else if l.all isDecDigitChar then
    some (l.foldl (fun acc c => acc * 10 + (c.toNat - 48)) 0)
  else none

/-- Modelled from the spec: `utils::scid_from_human_readable_string` is in
`src/utils.rs`, not among the provided source files. Spec §4.3: parse three
decimal components separated by `x`, reject if any exceeds its field width
(24, 24 and 16 bits), and recompose the 64-bit SCID. -/
def scid_from_human_readable_string (s : List Char) : Except Unit Nat :=
  match splitOnChar 'x' s with
  | [b, t, v] =>
    match parseDec b, parseDec t, parseDec v with
    | some bn, some tn, some vn =>
      if bn < 16777216 ∧ tn < 16777216 ∧ vn < 65536 then
        Except.ok (bn * 1099511627776 + tn * 65536 + vn)
      else Except.error ()
    | _, _, _ => Except.error ()
  | _ => Except.error ()

/-- `JitChannelScid::to_scid`, delegating to the parser. -/
def JitChannelScid.to_scid (s : JitChannelScid) : Except Unit Nat :=
  scid_from_human_readable_string s.human

/-- A decimal component in canonical form: nonempty, all digits, and no
leading zero except for `"0"` itself. -/
def canonicalDec (l : List Char) : Bool :=
  !l.isEmpty && l.all isDecDigitChar && (l.head? != some '0' || l == ['0'])

/-- Rejoin split parts with the separator; inverse of `splitOnChar`. -/
def joinSep (sep : Char) : List (List Char) → List Char
  | [] => []
  | [p] => p
  | p :: ps => p ++ sep :: joinSep sep ps

/-! ## JSON values and serde serialization (`#[derive(Serialize)]`) -/

/-- A JSON value, as emitted by `serde_json`. Object fields keep emission
order: serde derive serializes struct fields in declaration order. -/
inductive Json where
  | null : Json
  | bool (b : Bool) : Json
  | num (n : Nat) : Json
  | str (s : String) : Json
  | arr (elems : List Json) : Json
  | obj (fields : List (String × Json)) : Json

/-- The keys of a JSON object, in emission order. -/
def Json.objKeys : Json → List String
  | .obj fields => fields.map Prod.fst
  | _ => []

/-- Look up a key in a JSON object. -/
def Json.objGet (j : Json) (k : String) : Option Json :=
  match j with
  | .obj fields => (fields.find? (fun kv => kv.fst == k)).map Prod.snd
  | _ => none

/-- chrono's serde `Serialize` for `DateTime<Utc>`: the RFC 3339 rendering
with the zero offset written as `Z`. -/
def dateTimeJson (dt : DateTimeUtc) : Json :=
  .str (String.mk (rfc3339Body dt ++ ['Z']))

/-- `GetInfoRequest`: protocol version plus an optional token. The `token`
field carries no serde attribute in the source. -/
structure GetInfoRequest where
  version : Nat
  token : Option String
deriving DecidableEq

/-- serde serialization of `GetInfoRequest` — both fields are always emitted;
a `None` token becomes JSON `null` because the field has no
`skip_serializing_if` attribute. -/
def serializeGetInfoRequest (r : GetInfoRequest) : Json :=
  .obj [("version", .num r.version),
        ("token", match r.token with
          | none => .null
          | some t => .str t)]

/-- `BuyRequest`: version, chosen offer, and an optional payment size carrying
`#[serde(skip_serializing_if = "Option::is_none")]`. -/
structure BuyRequest where
  version : Nat
  opening_fee_params : OpeningFeeParams
  payment_size_msat : Option Nat
deriving DecidableEq

/-- serde serialization of `OpeningFeeParams` — all six fields, in declaration
order. -/
def serializeOpeningFeeParams (p : OpeningFeeParams) : Json :=
  .obj [("min_fee_msat", .num p.min_fee_msat),
        ("proportional", .num p.proportional),
        ("valid_until", dateTimeJson p.valid_until),
        ("min_lifetime", .num p.min_lifetime),
        ("max_client_to_self_delay", .num p.max_client_to_self_delay),
        ("promise", .str p.promise)]

/-- serde serialization of `BuyRequest` — `payment_size_msat` is skipped
entirely when `None` because of its `skip_serializing_if` attribute. -/
def serializeBuyRequest (r : BuyRequest) : Json :=
  .obj ([("version", .num r.version),
         ("opening_fee_params", serializeOpeningFeeParams r.opening_fee_params)]
    ++ match r.payment_size_msat with
       | none => []
       | some n => [("payment_size_msat", .num n)])

/-! ## LiquidityManager (`src/transport/message_handler.rs`) -/

/-- `JITChannelsConfig`: promise secret and payment-size bounds. -/
structure JITChannelsConfig where
  promise_secret : List Nat
  min_payment_size_msat : Nat
  max_payment_size_msat : Nat

/-- `LiquidityProviderConfig`: optional JIT channel configuration. -/
structure LiquidityProviderConfig where
  jit_channels : Option JITChannelsConfig

/-- `APIError`, restricted to the one variant this module constructs. -/
inductive APIError where
  | apiMisuseError (err : String) : APIError
deriving DecidableEq

/-- A `LightningError`, as much of it as `handle_custom_message` can surface:
the message and whether the attached `ErrorAction` logs at `Error` or `Info`
level (both actions ignore the message rather than disconnecting). -/
inductive LightningErrorM where
  | ignoreAndLogError (err : String) : LightningErrorM
  | ignoreAndLogInfo (err : String) : LightningErrorM
deriving DecidableEq

/-- An `LSPSMessage`, at the granularity the facade dispatches on: the
`Invalid` marker, an LSPS0 message, or an LSPS2 message (inner payloads
abstracted to an index, since `transport/msgs.rs` is not among the provided
source files). -/
inductive LSPSMessageM where
  | invalid : LSPSMessageM
  | lsps0 (m : Nat) : LSPSMessageM
  | lsps2 (m : Nat) : LSPSMessageM
deriving DecidableEq

/-- The mutable state of a `LiquidityManager`, generic over the state type `J`
of the JIT channel manager (`jit_channel/channel_manager.rs` is not among the
provided source files, so its state and operations stay abstract). Peer node
ids are abstracted to `Nat`, events to `Nat`. -/
structure LMState (J : Type) where
  pending_messages : List (Nat × LSPSMessageM)
  pending_events : List Nat
  request_id_to_method_map : List (String × String)
  lsps2_message_handler : Option J
  provider_config : Option LiquidityProviderConfig

/-- `LiquidityManager::new`: the LSPS2 handler exists exactly when a provider
config with a JIT channels config was supplied
(`provider_config.as_ref().and_then(|c| c.jit_channels.as_ref().map(..))`);
`mkJit` abstracts `JITChannelManager::new`. -/
def LMState.new (J : Type) (mkJit : JITChannelsConfig → J)
    (provider_config : Option LiquidityProviderConfig) : LMState J :=
  { pending_messages := []
    pending_events := []
    request_id_to_method_map := []
    lsps2_message_handler :=
      provider_config.bind (fun config => config.jit_channels.map mkJit)
    provider_config := provider_config }

/-- The observable outcome of a call into the JIT channel manager: its result,
its new state, and the messages and events it pushed onto the shared queues.
Used to keep the (absent) `JITChannelManager` code abstract. -/
structure JitOutcome (J : Type) where
  result : Except APIError Unit
  handler : J
  msgs : List (Nat × LSPSMessageM)
  events : List Nat

/-- Fold a JIT-manager call outcome back into the facade state. -/
def LMState.applyJit {J : Type} (lm : LMState J) (o : JitOutcome J) : LMState J :=
  { lm with
    lsps2_message_handler := some o.handler
    pending_messages := lm.pending_messages ++ o.msgs
    pending_events := lm.pending_events ++ o.events }

/-- The error every configuration-requiring JIT operation returns when the
LSPS2 handler was never constructed. -/
def jitNotConfiguredError : APIError :=
  APIError.apiMisuseError
    "JIT Channels were not configured when LSPManager was instantiated"

/-- `LiquidityManager::jit_channel_create_invoice`: delegate to the LSPS2
handler and return `Ok(())`, or fail with an API misuse error when JIT
channels were not configured. `create_invoice` itself (absent source) is the
abstract `delegate`. -/
def LMState.jit_channel_create_invoice {J : Type} (lm : LMState J)
    (delegate : J → Nat → Option Nat → Option String → Nat → JitOutcome J)
    (counterparty_node_id : Nat) (payment_size_msat : Option Nat)
    (token : Option String) (user_channel_id : Nat) :
    Except APIError Unit × LMState J :=
  match lm.lsps2_message_handler with
  | some handler =>
    let o := delegate handler counterparty_node_id payment_size_msat token user_channel_id
    (Except.ok (), lm.applyJit o)
  | none => (Except.error jitNotConfiguredError, lm)

/-- `LiquidityManager::opening_fee_params_generated`: delegate and propagate
the handler result, or fail with an API misuse error when JIT channels were
not configured. -/
def LMState.opening_fee_params_generated {J : Type} (lm : LMState J)
    (delegate : J → Nat → String → List RawOpeningFeeParams → JitOutcome J)
    (counterparty_node_id : Nat) (request_id : String)
    (opening_fee_params_menu : List RawOpeningFeeParams) :
    Except APIError Unit × LMState J :=
  match lm.lsps2_message_handler with
  | some handler =>
    let o := delegate handler counterparty_node_id request_id opening_fee_params_menu
    (o.result, lm.applyJit o)
  | none => (Except.error jitNotConfiguredError, lm)

/-- `LiquidityManager::opening_fee_params_selected`: delegate and propagate
the handler result, or fail with an API misuse error when JIT channels were
not configured. -/
def LMState.opening_fee_params_selected {J : Type} (lm : LMState J)
    (delegate : J → Nat → Nat → OpeningFeeParams → JitOutcome J)
    (counterparty_node_id : Nat) (channel_id : Nat)
    (opening_fee_params : OpeningFeeParams) :
    Except APIError Unit × LMState J :=
  match lm.lsps2_message_handler with
  | some handler =>
    let o := delegate handler counterparty_node_id channel_id opening_fee_params
    (o.result, lm.applyJit o)
  | none => (Except.error jitNotConfiguredError, lm)

/-- `LiquidityManager::invoice_parameters_generated`: delegate and propagate
the handler result, or fail with an API misuse error when JIT channels were
not configured. -/
def LMState.invoice_parameters_generated {J : Type} (lm : LMState J)
    (delegate : J → Nat → String → Nat → Nat → Bool → JitOutcome J)
    (counterparty_node_id : Nat) (request_id : String) (scid : Nat)
    (cltv_expiry_delta : Nat) (client_trusts_lsp : Bool) :
    Except APIError Unit × LMState J :=
  match lm.lsps2_message_handler with
  | some handler =>
    let o := delegate handler counterparty_node_id request_id scid
      cltv_expiry_delta client_trusts_lsp
    (o.result, lm.applyJit o)
  | none => (Except.error jitNotConfiguredError, lm)

/-- `LiquidityManager::htlc_intercepted`: delegate with `?` when an LSPS2
handler exists, and otherwise silently return `Ok(())`. -/
def LMState.htlc_intercepted {J : Type} (lm : LMState J)
    (delegate : J → Nat → Nat → Nat → Nat → JitOutcome J)
    (scid : Nat) (intercept_id : Nat) (inbound_amount_msat : Nat)
    (expected_outbound_amount_msat : Nat) :
    Except APIError Unit × LMState J :=
  match lm.lsps2_message_handler with
  | some handler =>
    let o := delegate handler scid intercept_id inbound_amount_msat
      expected_outbound_amount_msat
    (o.result, lm.applyJit o)
  | none => (Except.ok (), lm)

/-- `LiquidityManager::channel_ready`: delegate with `?` when an LSPS2 handler
exists, and otherwise silently return `Ok(())`. -/
def LMState.channel_ready {J : Type} (lm : LMState J)
    (delegate : J → Nat → Nat → Nat → JitOutcome J)
    (user_channel_id : Nat) (channel_id : Nat) (counterparty_node_id : Nat) :
    Except APIError Unit × LMState J :=
  match lm.lsps2_message_handler with
  | some handler =>
    let o := delegate handler user_channel_id channel_id counterparty_node_id
    (o.result, lm.applyJit o)
  | none => (Except.ok (), lm)

/-- `LiquidityManager::enqueue_message`: push one `(peer, message)` pair onto
the outbound queue. -/
def LMState.enqueue_message {J : Type} (lm : LMState J) (node_id : Nat)
    (msg : LSPSMessageM) : LMState J :=
  { lm with pending_messages := lm.pending_messages ++ [(node_id, msg)] }

/-- `CustomMessageHandler::handle_custom_message`: decode the payload against
the request-id map (`LSPSMessage::from_str_with_id_map`, absent source,
abstracted as `from_str_with_id_map`), dispatch a decoded message
(`handle_lsps_message`, abstracted as `handle_lsps`), and on any decode
failure enqueue an `Invalid` marker back to the sender and return `Ok(())`. -/
def LMState.handle_custom_message {J : Type} (lm : LMState J)
    (from_str_with_id_map : String → List (String × String)
      → Except Unit LSPSMessageM × List (String × String))
    (handle_lsps : LMState J → LSPSMessageM → Nat
      → Except LightningErrorM Unit × LMState J)
    (payload : String) (sender_node_id : Nat) :
    Except LightningErrorM Unit × LMState J :=
  let decoded := from_str_with_id_map payload lm.request_id_to_method_map
  let lm1 : LMState J := { lm with request_id_to_method_map := decoded.2 }
  match decoded.1 with
  | Except.ok msg => handle_lsps lm1 msg sender_node_id
  | Except.error _ =>
    (Except.ok (), lm1.enqueue_message sender_node_id LSPSMessageM.invalid)

/-! ## Feature bits -/

/-- The custom feature bit advertised for LSPS support (`LSPS_FEATURE_BIT`). -/
def LSPS_FEATURE_BIT : Nat := 729

/-- An LDK feature vector, abstracted to the set of set bit indices. -/
structure FeaturesM where
  bits : List Nat
deriving DecidableEq

/-- `Features::empty`. -/
def FeaturesM.empty : FeaturesM := ⟨[]⟩

/-- Membership of a bit in a feature vector. -/
def FeaturesM.containsBit (f : FeaturesM) (bit : Nat) : Bool := f.bits.contains bit

/-- `Features::set_optional_custom_bit`: optional bits are odd; setting an
even bit fails (the source `unwrap`s, and 729 is odd). -/
def FeaturesM.set_optional_custom_bit (f : FeaturesM) (bit : Nat) :
    Option FeaturesM :=
  if bit % 2 = 1 then some ⟨bit :: f.bits⟩ else none

/-- `CustomMessageHandler::provided_node_features`: start from empty features
and set the optional LSPS custom bit exactly when a provider config is
present. -/
def provided_node_features (provider_config : Option LiquidityProviderConfig) :
    FeaturesM :=
  if provider_config.isSome then
    (FeaturesM.empty.set_optional_custom_bit LSPS_FEATURE_BIT).getD FeaturesM.empty
  else FeaturesM.empty

/-- `CustomMessageHandler::provided_init_features`: identical to the node
features; the counterparty node id is ignored. -/
def provided_init_features (provider_config : Option LiquidityProviderConfig)
    (_their_node_id : Nat) : FeaturesM :=
  if provider_config.isSome then
    (FeaturesM.empty.set_optional_custom_bit LSPS_FEATURE_BIT).getD FeaturesM.empty
  else FeaturesM.empty

/-! ## Chain listening (`impl Listen for LiquidityManager`) -/

/-- `BestBlock`: the hash and height of the best chain tip the manager has
seen; hashes are abstract (`Nat`). -/
structure BestBlockM where
  block_hash : Nat
  height : Nat
deriving DecidableEq

/-- A `bitcoin::BlockHeader`, reduced to what the listener consumes: its
`prev_blockhash` field and its own hash (`header.block_hash()`, kept abstract
as a field since the double-SHA256 of the header plays no structural role). -/
structure BlockHeaderM where
  prev_blockhash : Nat
  self_hash : Nat
deriving DecidableEq

/-- `u32` subtraction of one, wrapping (release-profile Rust semantics of
`height - 1`). -/
def u32SubOne (height : Nat) : Nat := (height + 4294967295) % 4294967296

/-- `Listen::filtered_block_connected`: assert that the connected header
builds on the current best block and sits one above it, then call the
(no-op) `transactions_confirmed` and `best_block_updated`; a failed
`assert_eq!` is a panic, modelled as `Except.error` with the assertion
message. The best block is not modified. -/
def filtered_block_connected (best_block : BestBlockM) (header : BlockHeaderM)
    (height : Nat) : Except String BestBlockM :=
  if best_block.block_hash = header.prev_blockhash then
    if best_block.height = u32SubOne height then
      Except.ok best_block
    else
      Except.error "Blocks must be connected in chain-order - the connected block height must be one greater than the previous height"
  else
    Except.error "Blocks must be connected in chain-order - the connected header must build on the last connected header"

/-- `Listen::block_disconnected`: assert that the disconnected header is the
current tip at the given height, then set the best block to the header's
parent at one less height. -/
def block_disconnected (best_block : BestBlockM) (header : BlockHeaderM)
    (height : Nat) : Except String BestBlockM :=
  if best_block.block_hash = header.self_hash then
    if best_block.height = height then
      Except.ok ⟨header.prev_blockhash, u32SubOne height⟩
    else
      Except.error "Blocks must be disconnected in chain-order - the disconnected block must have the correct height"
  else
    Except.error "Blocks must be disconnected in chain-order - the disconnected header must be the last connected header"

/-! ### Decimal round-trip lemmas -/

theorem decLEAux_fuel (f1 f2 n : Nat) (h1 : n < f1) (h2 : n < f2) :
    decLEAux f1 n = decLEAux f2 n := by
  induction f1 generalizing f2 n with
  | zero => omega
  | succ f1 ih =>
    match f2, h2 with
    | g + 1, hg =>
      simp only [decLEAux]
      by_cases h : n < 10
      · simp [h]
      · simp only [if_neg h]
        exact congrArg (List.cons (n % 10)) (ih g (n / 10) (by omega) (by omega))

theorem decLEAux_lt_ten (fuel n : Nat) (h : n < fuel) :
    ∀ d ∈ decLEAux fuel n, d < 10 := by
  induction fuel generalizing n with
  | zero => omega
  | succ fuel ih =>
    simp only [decLEAux]
    by_cases h10 : n < 10
    · simp [h10]
    · simp only [if_neg h10, List.mem_cons]
      rintro d (rfl | hd)
      · omega
      · exact ih (n / 10) (by omega) d hd

theorem decLEAux_ne_nil (fuel n : Nat) (h : n < fuel) : decLEAux fuel n ≠ [] := by
  match fuel, h with
  | fuel + 1, _ =>
    simp only [decLEAux]
    by_cases h10 : n < 10 <;> simp [h10]

theorem valLE_decLEAux (fuel n : Nat) (h : n < fuel) :
    (decLEAux fuel n).foldr (fun d a => a * 10 + d) 0 = n := by
  induction fuel generalizing n with
  | zero => omega
  | succ fuel ih =>
    simp only [decLEAux]
    by_cases h10 : n < 10
    · simp [h10]
    · simp only [if_neg h10, List.foldr_cons]
      rw [ih (n / 10) (by omega)]
      omega

theorem valLE_pos (l : List Nat) (hne : l ≠ []) (hlast : l.getLast? ≠ some 0) :
    1 ≤ l.foldr (fun d a => a * 10 + d) 0 := by
  induction l with
  | nil => exact absurd rfl hne
  | cons d r ih =>
    match r with
    | [] =>
      simp only [List.getLast?_singleton, ne_eq, Option.some.injEq] at hlast
      simpa using Nat.one_le_iff_ne_zero.mpr hlast
    | d' :: r' =>
      have := ih (by simp) (by rwa [List.getLast?_cons_cons] at hlast)
      simp only [List.foldr_cons] at this ⊢
      omega

theorem decLEAux_valLE (l : List Nat) (hd : ∀ d ∈ l, d < 10) (hne : l ≠ [])
    (hlast : l.getLast? ≠ some 0 ∨ l = [0]) (fuel : Nat)
    (hf : l.foldr (fun d a => a * 10 + d) 0 < fuel) :
    decLEAux fuel (l.foldr (fun d a => a * 10 + d) 0) = l := by
  induction l generalizing fuel with
  | nil => exact absurd rfl hne
  | cons d r ih =>
    match r with
    | [] =>
      match fuel, hf with
      | fuel + 1, _ =>
        have hd0 : d < 10 := hd d (by simp)
        simp only [List.foldr_cons, List.foldr_nil] at hf ⊢
        simp [decLEAux, hd0]
    | d' :: r' =>
      have hr : (d' :: r').getLast? ≠ some 0 := by
        rcases hlast with h | h
        · rwa [List.getLast?_cons_cons] at h
        · simp at h
      have hv : 1 ≤ (d' :: r').foldr (fun d a => a * 10 + d) 0 :=
        valLE_pos _ (by simp) hr
      have hd0 : d < 10 := hd d (by simp)
      rw [List.foldr_cons] at hf ⊢
      match fuel, hf with
      | fuel + 1, hf' =>
        have hbig : ¬((d' :: r').foldr (fun d a => a * 10 + d) 0 * 10 + d < 10) := by omega
        simp only [decLEAux, if_neg hbig]
        have hmod : ((d' :: r').foldr (fun d a => a * 10 + d) 0 * 10 + d) % 10 = d := by omega
        have hdiv : ((d' :: r').foldr (fun d a => a * 10 + d) 0 * 10 + d) / 10
            = (d' :: r').foldr (fun d a => a * 10 + d) 0 := by omega
        rw [hmod, hdiv, ih (fun x hx => hd x (by simp [hx])) (by simp) (Or.inl hr) fuel (by omega)]

theorem digitChar_toNat (d : Nat) (h : d < 10) : (digitChar d).toNat = 48 + d := by
  interval_cases d <;> decide

theorem isDecDigitChar_digitChar (d : Nat) (h : d < 10) :
    isDecDigitChar (digitChar d) = true := by
  interval_cases d <;> decide

theorem digitChar_ne_x (d : Nat) (h : d < 10) : digitChar d ≠ 'x' := by
  interval_cases d <;> decide

theorem decDigits_lt_ten (n : Nat) : ∀ d ∈ decDigits n, d < 10 := by
  intro d hd
  exact decLEAux_lt_ten (n + 1) n (by omega) d (List.mem_reverse.mp hd)

theorem decDigits_ne_nil (n : Nat) : decDigits n ≠ [] := by
  simpa [decDigits] using decLEAux_ne_nil (n + 1) n (by omega)

theorem valBE_decDigits (n : Nat) :
    (decDigits n).foldl (fun a d => a * 10 + d) 0 = n := by
  rw [decDigits, List.foldl_reverse]
  exact valLE_decLEAux (n + 1) n (by omega)

theorem natDec_ne_nil (n : Nat) : natDec n ≠ [] := by
  simp [natDec, decDigits_ne_nil n]

theorem natDec_all_digits (n : Nat) : (natDec n).all isDecDigitChar = true := by
  rw [natDec, List.all_eq_true]
  intro c hc
  obtain ⟨d, hd, rfl⟩ := List.mem_map.mp hc
  exact isDecDigitChar_digitChar d (decDigits_lt_ten n d hd)

theorem x_not_mem_natDec (n : Nat) : 'x' ∉ natDec n := by
  rw [natDec]
  intro hx
  obtain ⟨d, hd, hdx⟩ := List.mem_map.mp hx
  exact digitChar_ne_x d (decDigits_lt_ten n d hd) hdx

theorem parseDec_natDec (n : Nat) : parseDec (natDec n) = some n := by
  rw [parseDec, if_neg (by simp [List.isEmpty_iff, natDec_ne_nil n]),
    if_pos (natDec_all_digits n)]
  rw [natDec, List.foldl_map]
  rw [List.foldl_ext _ (fun a d => a * 10 + d) 0
    (fun a d hd => by
      have h := digitChar_toNat d (decDigits_lt_ten n d hd)
      simp only [h]
      omega)]
  rw [valBE_decDigits]

theorem digitChar_decode (c : Char) (h : isDecDigitChar c = true) :
    digitChar (c.toNat - 48) = c := by
  simp only [isDecDigitChar, Bool.and_eq_true, decide_eq_true_eq] at h
  rw [digitChar, Nat.add_sub_cancel' h.1]
  exact Char.ofNat_toNat c

theorem isDecDigitChar_sub_lt (c : Char) (h : isDecDigitChar c = true) :
    c.toNat - 48 < 10 := by
  simp only [isDecDigitChar, Bool.and_eq_true, decide_eq_true_eq] at h
  omega

/-- Completeness of decimal rendering: a canonical decimal string is the
rendering of its parsed value. -/
theorem natDec_parseDec (l : List Char) (hc : canonicalDec l = true) (n : Nat)
    (hp : parseDec l = some n) : natDec n = l := by
  simp only [canonicalDec, Bool.and_eq_true, Bool.or_eq_true, bne_iff_ne, ne_eq,
    Bool.not_eq_true', List.isEmpty_iff, beq_iff_eq] at hc
  obtain ⟨⟨hne, hall⟩, hhead⟩ := hc
  have hne' : l ≠ [] := by
    intro h
    subst h
    simp at hne
  rw [parseDec, if_neg (by simp [List.isEmpty_iff, hne']), if_pos hall,
    Option.some_inj] at hp
  rw [List.all_eq_true] at hall
  have hval : (l.map (fun c => c.toNat - 48)).reverse.foldr (fun d a => a * 10 + d) 0 = n := by
    rw [List.foldr_reverse, List.foldl_map]
    exact hp
  have hrec : decLEAux (n + 1) n = (l.map (fun c => c.toNat - 48)).reverse := by
    have := decLEAux_valLE ((l.map (fun c => c.toNat - 48)).reverse)
      (fun d hd => by
        obtain ⟨c, hc, rfl⟩ := List.mem_map.mp (List.mem_reverse.mp hd)
        exact isDecDigitChar_sub_lt c (hall c hc))
      (by simp [hne'])
      (by
        rcases hhead with h0 | h0
        · left
          match l, hne' with
          | c :: t, _ =>
            rw [List.map_cons, List.getLast?_reverse, List.head?_cons]
            simp only [ne_eq, Option.some.injEq]
            intro hco
            apply h0
            have hcd := digitChar_decode c (hall c (by simp))
            rw [hco] at hcd
            rw [List.head?_cons, ← hcd]
            rfl
        · right
          rw [h0]
          rfl)
      (n + 1) (by rw [hval]; omega)
    rw [hval] at this
    exact this
  rw [natDec, decDigits, hrec, List.reverse_reverse, List.map_map]
  have hid : ∀ c ∈ l, (digitChar ∘ fun c => c.toNat - 48) c = id c :=
    fun c hc => digitChar_decode c (hall c hc)
  rw [List.map_congr_left hid, List.map_id]

/-! ### Split lemmas -/

theorem splitOnCharAux_no_sep (sep : Char) (l acc : List Char) (h : sep ∉ l) :
    splitOnCharAux sep l acc = [acc.reverse ++ l] := by
  induction l generalizing acc with
  | nil => simp [splitOnCharAux]
  | cons c cs ih =>
    have hc : ¬(c = sep) := fun hceq => h (hceq ▸ List.mem_cons_self c cs)
    rw [splitOnCharAux, if_neg hc, ih (c :: acc) (fun hm => h (List.mem_cons_of_mem c hm))]
    simp

theorem splitOnCharAux_append_sep (sep : Char) (l rest acc : List Char) (h : sep ∉ l) :
    splitOnCharAux sep (l ++ sep :: rest) acc
      = (acc.reverse ++ l) :: splitOnCharAux sep rest [] := by
  induction l generalizing acc with
  | nil => simp [splitOnCharAux]
  | cons c cs ih =>
    have hc : ¬(c = sep) := fun hceq => h (hceq ▸ List.mem_cons_self c cs)
    rw [List.cons_append, splitOnCharAux, if_neg hc,
      ih (c :: acc) (fun hm => h (List.mem_cons_of_mem c hm))]
    simp

theorem splitOnChar_three (sep : Char) (a b c : List Char)
    (ha : sep ∉ a) (hb : sep ∉ b) (hc : sep ∉ c) :
    splitOnChar sep (a ++ sep :: (b ++ sep :: c)) = [a, b, c] := by
  rw [splitOnChar, splitOnCharAux_append_sep sep a _ [] ha,
    splitOnCharAux_append_sep sep b _ [] hb, splitOnCharAux_no_sep sep c [] hc]
  simp

theorem splitOnCharAux_ne_nil (sep : Char) (l acc : List Char) :
    splitOnCharAux sep l acc ≠ [] := by
  induction l generalizing acc with
  | nil => simp [splitOnCharAux]
  | cons c cs ih =>
    rw [splitOnCharAux]
    by_cases hc : c = sep
    · simp [hc]
    · simp only [if_neg hc]
      exact ih (c :: acc)

theorem joinSep_cons (sep : Char) (p : List Char) (ps : List (List Char))
    (h : ps ≠ []) : joinSep sep (p :: ps) = p ++ sep :: joinSep sep ps := by
  match ps, h with
  | q :: qs, _ => rfl

theorem joinSep_splitOnCharAux (sep : Char) (l acc : List Char) :
    joinSep sep (splitOnCharAux sep l acc) = acc.reverse ++ l := by
  induction l generalizing acc with
  | nil => simp [splitOnCharAux, joinSep]
  | cons c cs ih =>
    rw [splitOnCharAux]
    by_cases hc : c = sep
    · rw [if_pos hc, hc,
        joinSep_cons sep _ _ (splitOnCharAux_ne_nil sep cs ([] : List Char))]
      have := ih ([] : List Char)
      simp only [List.reverse_nil, List.nil_append] at this
      rw [this]
    · rw [if_neg hc, ih (c :: acc)]
      simp

theorem joinSep_splitOnChar (sep : Char) (l : List Char) :
    joinSep sep (splitOnChar sep l) = l := by
  simpa using joinSep_splitOnCharAux sep l []

/-! ### SCID field arithmetic -/

theorem scid_fields_spec (x : Nat) (hx : x < 18446744073709551616) :
    block_from_scid x < 16777216 ∧ tx_index_from_scid x < 16777216
      ∧ vout_from_scid x < 65536
      ∧ block_from_scid x * 1099511627776 + tx_index_from_scid x * 65536
          + vout_from_scid x = x := by
  unfold block_from_scid tx_index_from_scid vout_from_scid
  omega

/-! ## Claim theorems -/

/-- C1 (counterexample): at the spec's own concrete scenario
(`min_fee_msat = 100`, `proportional = 21`,
`valid_until = 2035-05-20T08:30:45Z`, `min_lifetime = 144`,
`max_client_to_self_delay = 128`, secret `[0x01; 32]`), the promise the code
computes is not the HMAC over the `Z`-suffixed RFC 3339 string the claim
prescribes — chrono's `to_rfc3339` renders the zero offset as `+00:00`. -/
theorem C1_counterexample_promise_not_z_form :
    ((RawOpeningFeeParams.mk 100 21 (DateTimeUtc.mk 2035 5 20 8 30 45 0) 144 128).into_opening_fee_params
        (List.replicate 32 1)).promise
      ≠ hex_str (hmacSha256 (List.replicate 32 1)
          (beBytes 8 100 ++ beBytes 4 21
            ++ strBytes (specRfc3339Z (DateTimeUtc.mk 2035 5 20 8 30 45 0))
            ++ beBytes 4 144 ++ beBytes 4 128)) := by
  decide

/-- C1 (amended): `into_opening_fee_params` preserves the five non-promise
fields and sets `promise` to the lowercase hex HMAC-SHA256, keyed by the
secret, over the concatenation of the 8-byte big-endian `min_fee_msat`, the
4-byte big-endian `proportional`, the UTF-8 bytes of chrono's RFC 3339
rendering of `valid_until` (UTC with numeric offset `+00:00`, fractional
seconds only when nonzero), the 4-byte big-endian `min_lifetime` and the
4-byte big-endian `max_client_to_self_delay`. -/
theorem C1_into_opening_fee_params_fields_and_promise
    (r : RawOpeningFeeParams) (S : List Nat) :
    (r.into_opening_fee_params S).min_fee_msat = r.min_fee_msat
    ∧ (r.into_opening_fee_params S).proportional = r.proportional
    ∧ (r.into_opening_fee_params S).valid_until = r.valid_until
    ∧ (r.into_opening_fee_params S).min_lifetime = r.min_lifetime
    ∧ (r.into_opening_fee_params S).max_client_to_self_delay
        = r.max_client_to_self_delay
    ∧ (r.into_opening_fee_params S).promise
        = hex_str (hmacSha256 S
            (beBytes 8 r.min_fee_msat ++ beBytes 4 r.proportional
              ++ strBytes (to_rfc3339 r.valid_until)
              ++ beBytes 4 r.min_lifetime
              ++ beBytes 4 r.max_client_to_self_delay)) :=
  ⟨rfl, rfl, rfl, rfl, rfl, rfl⟩

/-- C2: upgrading a raw offer to a full offer under a secret and re-verifying
it under the same secret at any time not later than `valid_until` succeeds. -/
theorem C2_promise_round_trip (r : RawOpeningFeeParams) (S : List Nat)
    (t : DateTimeUtc) (h : dtLe t r.valid_until = true) :
    is_valid_opening_fee_params (r.into_opening_fee_params S) S t = true := by
  simp only [is_valid_opening_fee_params, RawOpeningFeeParams.into_opening_fee_params,
    OpeningFeeParams.raw_fields, h, Bool.and_true, beq_self_eq_true]

/-- C2 (witness): the spec's concrete scenario verifies at
2024-01-01T00:00:00Z. -/
theorem C2_promise_round_trip_witness :
    is_valid_opening_fee_params
      ((RawOpeningFeeParams.mk 100 21 (DateTimeUtc.mk 2035 5 20 8 30 45 0) 144 128).into_opening_fee_params
        (List.replicate 32 1))
      (List.replicate 32 1) (DateTimeUtc.mk 2024 1 1 0 0 0 0) = true :=
  C2_promise_round_trip _ _ _ (by decide)

/-- C4 (counterexample): the string `"00x0x0"` is well-formed — it parses
successfully (to SCID 0) — but formatting the parsed value yields `"0x0x0"`,
not `"00x0x0"`, so the second round trip of the claim fails. -/
theorem C4_counterexample_leading_zero :
    (JitChannelScid.mk ("00x0x0".data)).to_scid = Except.ok 0
      ∧ JitChannelScid.fromU64 0 ≠ JitChannelScid.mk ("00x0x0".data) := by
  constructor
  · rfl
  · decide

/-- C4 (amended): formatting any `u64` and parsing it back returns the same
value; and parsing a well-formed string whose three components are canonical
decimal (no leading zeros) and re-formatting reproduces the string exactly.
(Non-canonical components such as `"01"` parse successfully but do not
re-format to themselves.) -/
theorem C4_scid_round_trips :
    (∀ x : Nat, x < 18446744073709551616 →
      (JitChannelScid.fromU64 x).to_scid = Except.ok x)
    ∧ (∀ s : JitChannelScid,
        (∀ part ∈ splitOnChar 'x' s.human, canonicalDec part = true) →
        ∀ y : Nat, s.to_scid = Except.ok y → JitChannelScid.fromU64 y = s) := by
  constructor
  · intro x hx
    obtain ⟨hb, ht, hv, hsum⟩ := scid_fields_spec x hx
    have hsplit := splitOnChar_three 'x' (natDec (block_from_scid x))
      (natDec (tx_index_from_scid x)) (natDec (vout_from_scid x))
      (x_not_mem_natDec _) (x_not_mem_natDec _) (x_not_mem_natDec _)
    show scid_from_human_readable_string
      (natDec (block_from_scid x)
        ++ 'x' :: (natDec (tx_index_from_scid x)
          ++ 'x' :: natDec (vout_from_scid x))) = Except.ok x
    simp only [scid_from_human_readable_string, hsplit, parseDec_natDec]
    rw [if_pos ⟨hb, ht, hv⟩, hsum]
  · intro s hcanon y hy
    obtain ⟨human⟩ := s
    rw [JitChannelScid.to_scid, scid_from_human_readable_string] at hy
    split at hy
    case h_2 => exact absurd hy (by simp)
    case h_1 b t v heq =>
      split at hy
      case h_2 => exact absurd hy (by simp)
      case h_1 bn tn vn hbp htp hvp =>
        split at hy
        case isFalse => exact absurd hy (by simp)
        case isTrue hrange =>
          obtain ⟨hbr, htr, hvr⟩ := hrange
          rw [Except.ok.injEq] at hy
          have hcb : canonicalDec b = true := hcanon b (by rw [heq]; simp)
          have hct : canonicalDec t = true := hcanon t (by rw [heq]; simp)
          have hcv : canonicalDec v = true := hcanon v (by rw [heq]; simp)
          have hj3 : joinSep 'x' [b, t, v] = b ++ 'x' :: (t ++ 'x' :: v) := by
            rw [joinSep_cons 'x' b [t, v] (by simp),
              joinSep_cons 'x' t [v] (by simp)]
            rfl
          have hshape : human = b ++ 'x' :: (t ++ 'x' :: v) := by
            have hjoin := joinSep_splitOnChar 'x' human
            rw [heq, hj3] at hjoin
            exact hjoin.symm
          have hblock : block_from_scid y = bn := by
            rw [← hy, block_from_scid]
            omega
          have htx : tx_index_from_scid y = tn := by
            rw [← hy, tx_index_from_scid]
            omega
          have hvout : vout_from_scid y = vn := by
            rw [← hy, vout_from_scid]
            omega
          rw [JitChannelScid.fromU64, hblock, htx, hvout,
            natDec_parseDec b hcb bn hbp, natDec_parseDec t hct tn htp,
            natDec_parseDec v hcv vn hvp]
          rw [hshape]

/-- C4 (witness): the round trips at the spec's concrete SCID
`"840000x1x0"` = `923589767331905536`. -/
theorem C4_scid_round_trips_witness :
    (JitChannelScid.fromU64 923589767331905536).to_scid
        = Except.ok 923589767331905536
      ∧ JitChannelScid.fromU64 923589767331905536
        = JitChannelScid.mk ("840000x1x0".data) :=
  ⟨C4_scid_round_trips.1 923589767331905536 (by decide),
   C4_scid_round_trips.2 (JitChannelScid.mk ("840000x1x0".data)) (by decide)
     923589767331905536 rfl⟩

theorem new_handler_none {J : Type} (mkJit : JITChannelsConfig → J)
    (cfg : Option LiquidityProviderConfig)
    (hcfg : cfg.bind (fun c => c.jit_channels) = none) :
    (LMState.new J mkJit cfg).lsps2_message_handler = none := by
  cases cfg with
  | none => rfl
  | some c =>
    simp at hcfg
    simp [LMState.new, hcfg]

/-- C5: whenever decoding an inbound payload fails — for any decoder outcome
in the error case and any dispatch function — `handle_custom_message`
enqueues an `Invalid` marker addressed to the sender on the outbound message
queue and returns `Ok(())`: no `LightningError` (and hence no disconnect
action) ever reaches the caller, and nothing else in the state changes. -/
theorem C5_decode_failure_enqueues_invalid {J : Type} (lm : LMState J)
    (from_str_with_id_map : String → List (String × String)
      → Except Unit LSPSMessageM × List (String × String))
    (handle_lsps : LMState J → LSPSMessageM → Nat
      → Except LightningErrorM Unit × LMState J)
    (payload : String) (sender_node_id : Nat) (m : List (String × String))
    (h : from_str_with_id_map payload lm.request_id_to_method_map
      = (Except.error (), m)) :
    lm.handle_custom_message from_str_with_id_map handle_lsps payload sender_node_id
      = (Except.ok (),
          ({ lm with request_id_to_method_map := m } : LMState J).enqueue_message
            sender_node_id LSPSMessageM.invalid) := by
  rw [LMState.handle_custom_message, h]

/-- C5 (witness): a decoder that always fails, on a concrete manager state. -/
theorem C5_decode_failure_enqueues_invalid_witness :
    (LMState.mk (J := Unit) [] [] [] none none).handle_custom_message
        (fun _ m => (Except.error (), m)) (fun lm _ _ => (Except.ok (), lm))
        "not json" 7
      = (Except.ok (),
          LMState.mk (J := Unit) [(7, LSPSMessageM.invalid)] [] [] none none) :=
  C5_decode_failure_enqueues_invalid (LMState.mk [] [] [] none none)
    (fun _ m => (Except.error (), m)) (fun lm _ _ => (Except.ok (), lm))
    "not json" 7 [] rfl

/-- C6: on a `LiquidityManager` constructed without JIT channel configuration
(no provider config, or a provider config without `jit_channels`), each of the
four configuration-requiring JIT operations returns the dedicated
`APIMisuseError` and leaves the state untouched — no message enqueued, no
event emitted, no map entry created. -/
theorem C6_jit_ops_require_config {J : Type} (mkJit : JITChannelsConfig → J)
    (cfg : Option LiquidityProviderConfig)
    (hcfg : cfg.bind (fun c => c.jit_channels) = none)
    (d1 : J → Nat → Option Nat → Option String → Nat → JitOutcome J)
    (d2 : J → Nat → String → List RawOpeningFeeParams → JitOutcome J)
    (d3 : J → Nat → Nat → OpeningFeeParams → JitOutcome J)
    (d4 : J → Nat → String → Nat → Nat → Bool → JitOutcome J)
    (peer : Nat) (payment_size_msat : Option Nat) (token : Option String)
    (user_channel_id : Nat) (request_id : String)
    (menu : List RawOpeningFeeParams) (channel_id : Nat)
    (params : OpeningFeeParams) (scid : Nat) (cltv_expiry_delta : Nat)
    (client_trusts_lsp : Bool) :
    (LMState.new J mkJit cfg).jit_channel_create_invoice d1 peer
        payment_size_msat token user_channel_id
      = (Except.error jitNotConfiguredError, LMState.new J mkJit cfg)
    ∧ (LMState.new J mkJit cfg).opening_fee_params_generated d2 peer
        request_id menu
      = (Except.error jitNotConfiguredError, LMState.new J mkJit cfg)
    ∧ (LMState.new J mkJit cfg).opening_fee_params_selected d3 peer
        channel_id params
      = (Except.error jitNotConfiguredError, LMState.new J mkJit cfg)
    ∧ (LMState.new J mkJit cfg).invoice_parameters_generated d4 peer
        request_id scid cltv_expiry_delta client_trusts_lsp
      = (Except.error jitNotConfiguredError, LMState.new J mkJit cfg) := by
  have hnone := new_handler_none mkJit cfg hcfg
  refine ⟨?_, ?_, ?_, ?_⟩ <;>
    simp only [LMState.jit_channel_create_invoice,
      LMState.opening_fee_params_generated, LMState.opening_fee_params_selected,
      LMState.invoice_parameters_generated, hnone]

/-- C6 (witness): all four operations fail without mutation on a concrete
manager built with no provider config. -/
theorem C6_jit_ops_require_config_witness :
    (LMState.new Unit (fun _ => ()) none).jit_channel_create_invoice
        (fun h _ _ _ _ => JitOutcome.mk (Except.ok ()) h [] []) 9 none none 7
      = (Except.error jitNotConfiguredError, LMState.new Unit (fun _ => ()) none)
    ∧ (LMState.new Unit (fun _ => ()) none).opening_fee_params_generated
        (fun h _ _ _ => JitOutcome.mk (Except.ok ()) h [] []) 9 "rid" []
      = (Except.error jitNotConfiguredError, LMState.new Unit (fun _ => ()) none)
    ∧ (LMState.new Unit (fun _ => ()) none).opening_fee_params_selected
        (fun h _ _ _ => JitOutcome.mk (Except.ok ()) h [] []) 9 7
        (OpeningFeeParams.mk 100 21 (DateTimeUtc.mk 2035 5 20 8 30 45 0) 144 128 "p")
      = (Except.error jitNotConfiguredError, LMState.new Unit (fun _ => ()) none)
    ∧ (LMState.new Unit (fun _ => ()) none).invoice_parameters_generated
        (fun h _ _ _ _ _ => JitOutcome.mk (Except.ok ()) h [] []) 9 "rid" 5 144 true
      = (Except.error jitNotConfiguredError, LMState.new Unit (fun _ => ()) none) :=
  C6_jit_ops_require_config (fun _ => ()) none rfl _ _ _ _ 9 none none 7 "rid" []
    7 (OpeningFeeParams.mk 100 21 (DateTimeUtc.mk 2035 5 20 8 30 45 0) 144 128 "p")
    5 144 true

/-- C7: the node and init feature sets contain custom bit 729 exactly when a
provider config is present, and are empty when it is absent. -/
theorem C7_feature_bit_iff_provider_config
    (cfg : Option LiquidityProviderConfig) (peer : Nat) :
    ((provided_node_features cfg).containsBit 729 = cfg.isSome)
    ∧ ((provided_init_features cfg peer).containsBit 729 = cfg.isSome)
    ∧ provided_node_features none = FeaturesM.empty
    ∧ provided_init_features none peer = FeaturesM.empty := by
  cases cfg <;> exact ⟨rfl, rfl, rfl, rfl⟩

/-- C8 (counterexample): serializing `GetInfoRequest { version: 1, token:
None }` emits the `token` field as JSON `null` — the field carries no
`skip_serializing_if` attribute, so it is not omitted. -/
theorem C8_counterexample_token_serialized_as_null :
    (serializeGetInfoRequest (GetInfoRequest.mk 1 none)).objKeys
        = ["version", "token"]
    ∧ (serializeGetInfoRequest (GetInfoRequest.mk 1 none)).objGet "token"
        = some Json.null :=
  ⟨rfl, rfl⟩

/-- C8 (amended): `BuyRequest.payment_size_msat` carries
`skip_serializing_if = "Option::is_none"` and is omitted entirely when `None`
(and present when `Some`); `GetInfoRequest.token` carries no such attribute
and serializes `None` as JSON `null`. -/
theorem C8_optional_field_serialization (v : Nat) (p : OpeningFeeParams)
    (tok : String) :
    (serializeBuyRequest (BuyRequest.mk v p none)).objKeys
        = ["version", "opening_fee_params"]
    ∧ (∀ n : Nat, (serializeBuyRequest (BuyRequest.mk v p (some n))).objKeys
        = ["version", "opening_fee_params", "payment_size_msat"])
    ∧ (serializeGetInfoRequest (GetInfoRequest.mk v none)).objGet "token"
        = some Json.null
    ∧ (serializeGetInfoRequest (GetInfoRequest.mk v (some tok))).objGet "token"
        = some (Json.str tok) :=
  ⟨rfl, fun _ => rfl, rfl, rfl⟩

/-- C9: connecting a block succeeds (no assertion panic) exactly when the
header's `prev_blockhash` is the current tip hash and its height is one above
the current tip height (u32 arithmetic); disconnecting succeeds exactly when
the header is the current tip at the given height, in which case the best
block becomes `(prev_blockhash, height - 1)`; every chain-order violation hits
an assertion failure. -/
theorem C9_chain_order_contract (best : BestBlockM) (header : BlockHeaderM)
    (height : Nat) (hh : height < 4294967296) (hb : best.height < 4294967296) :
    ((filtered_block_connected best header height).isOk = true
      ↔ header.prev_blockhash = best.block_hash
        ∧ (best.height + 1) % 4294967296 = height)
    ∧ ((block_disconnected best header height).isOk = true
      ↔ header.self_hash = best.block_hash ∧ height = best.height)
    ∧ (header.self_hash = best.block_hash → height = best.height →
        block_disconnected best header height
          = Except.ok (BestBlockM.mk header.prev_blockhash (u32SubOne height))) := by
  refine ⟨?_, ?_, ?_⟩
  · rw [filtered_block_connected]
    by_cases h1 : best.block_hash = header.prev_blockhash
    · rw [if_pos h1]
      by_cases h2 : best.height = u32SubOne height
      · rw [if_pos h2]
        rw [u32SubOne] at h2
        exact iff_of_true rfl ⟨h1.symm, by omega⟩
      · rw [if_neg h2]
        refine iff_of_false (by simp [Except.isOk, Except.toBool]) ?_
        rintro ⟨-, hcontra⟩
        rw [u32SubOne] at h2
        exact h2 (by omega)
    · rw [if_neg h1]
      refine iff_of_false (by simp [Except.isOk, Except.toBool]) ?_
      rintro ⟨hcontra, -⟩
      exact h1 hcontra.symm
  · rw [block_disconnected]
    by_cases h1 : best.block_hash = header.self_hash
    · rw [if_pos h1]
      by_cases h2 : best.height = height
      · rw [if_pos h2]
        exact iff_of_true rfl ⟨h1.symm, h2.symm⟩
      · rw [if_neg h2]
        refine iff_of_false (by simp [Except.isOk, Except.toBool]) ?_
        rintro ⟨-, hcontra⟩
        exact h2 hcontra.symm
    · rw [if_neg h1]
      refine iff_of_false (by simp [Except.isOk, Except.toBool]) ?_
      rintro ⟨hcontra, -⟩
      exact h1 hcontra.symm
  · intro hhash hheight
    rw [block_disconnected, if_pos hhash.symm, if_pos hheight.symm]

/-- C9 (witness): a concrete in-order connect and disconnect, and a concrete
violation. -/
theorem C9_chain_order_contract_witness :
    ((filtered_block_connected (BestBlockM.mk 5 10) (BlockHeaderM.mk 5 99) 11).isOk = true
      ↔ (5 : Nat) = 5 ∧ ((10 : Nat) + 1) % 4294967296 = 11)
    ∧ ((block_disconnected (BestBlockM.mk 5 10) (BlockHeaderM.mk 5 99) 11).isOk = true
      ↔ (99 : Nat) = 5 ∧ (11 : Nat) = 10)
    ∧ ((99 : Nat) = 5 → (11 : Nat) = 10 →
        block_disconnected (BestBlockM.mk 5 10) (BlockHeaderM.mk 5 99) 11
          = Except.ok (BestBlockM.mk 5 (u32SubOne 11))) :=
  C9_chain_order_contract (BestBlockM.mk 5 10) (BlockHeaderM.mk 5 99) 11
    (by decide) (by decide)

/-- C10: on a `LiquidityManager` constructed without JIT channel
configuration, `htlc_intercepted` and `channel_ready` return `Ok(())` and
leave the state untouched — unlike the four configuration-requiring JIT
operations, they surface no error. -/
theorem C10_unconfigured_htlc_ops_are_noops {J : Type}
    (mkJit : JITChannelsConfig → J) (cfg : Option LiquidityProviderConfig)
    (hcfg : cfg.bind (fun c => c.jit_channels) = none)
    (d1 : J → Nat → Nat → Nat → Nat → JitOutcome J)
    (d2 : J → Nat → Nat → Nat → JitOutcome J)
    (scid : Nat) (intercept_id : Nat) (inbound_amount_msat : Nat)
    (expected_outbound_amount_msat : Nat) (user_channel_id : Nat)
    (channel_id : Nat) (peer : Nat) :
    (LMState.new J mkJit cfg).htlc_intercepted d1 scid intercept_id
        inbound_amount_msat expected_outbound_amount_msat
      = (Except.ok (), LMState.new J mkJit cfg)
    ∧ (LMState.new J mkJit cfg).channel_ready d2 user_channel_id channel_id peer
      = (Except.ok (), LMState.new J mkJit cfg) := by
  have hnone := new_handler_none mkJit cfg hcfg
  refine ⟨?_, ?_⟩ <;>
    simp only [LMState.htlc_intercepted, LMState.channel_ready, hnone]

/-- C10 (witness): both operations are no-ops on a concrete manager built
with no provider config. -/
theorem C10_unconfigured_htlc_ops_are_noops_witness :
    (LMState.new Unit (fun _ => ()) none).htlc_intercepted
        (fun h _ _ _ _ => JitOutcome.mk (Except.ok ()) h [] []) 5 0 1000000 999900
      = (Except.ok (), LMState.new Unit (fun _ => ()) none)
    ∧ (LMState.new Unit (fun _ => ()) none).channel_ready
        (fun h _ _ _ => JitOutcome.mk (Except.ok ()) h [] []) 7 1 9
      = (Except.ok (), LMState.new Unit (fun _ => ()) none) :=
  C10_unconfigured_htlc_ops_are_noops (fun _ => ()) none rfl _ _ 5 0 1000000
    999900 7 1 9

end LdkLsp
